import Mathlib

/-!
Verification development for the Waitrose scraper (`src/app.py`).

The Python source is shallowly embedded: the two pydantic record types become
structures, their `field_validator` normalizers become pure functions on
`Option String` (Python `None` is `none`, the Python truthiness test `if v:`
on a string is an emptiness test on its characters), and the two scraper
coroutines become pure functions over an abstract browser driver.  The driver
(`crawl4ai`'s `AsyncWebCrawler.arun`) is modelled as a function from the
requested URL (and, for the paginated listing flow, the index of the call)
to a fetch result carrying the `success` flag, the extracted payload, and the
raw page markup.  `json.loads` of the extracted content is modelled at the
boundary: a payload of `none` stands for content that fails to parse as JSON,
`some` carries the parsed shape the CSS extraction schema produces.
-/

/-- Embedding of Python's substring test `pat in hay` on strings. -/
def strContains (hay pat : List Char) : Bool :=
  match hay with
  | [] => pat.isEmpty
  | _ :: t => pat.isPrefixOf hay || strContains t pat

/-- Embedding of Python's `str.strip()` (ASCII whitespace): drop leading and
trailing whitespace characters. -/
def trimChars (l : List Char) : List Char :=
  ((l.dropWhile Char.isWhitespace).reverse.dropWhile Char.isWhitespace).reverse

/-- `str.strip()` at the `String` level. -/
def trimStr (s : String) : String :=
  String.mk (trimChars s.data)

/-- `class WaitroseProduct(BaseModel)` from `src/app.py`: the listing record.
`product_name` and `product_url` are required (`Field(...)`), the rest default
to `None`. -/
structure WaitroseProduct where
  product_name : String
  product_url : String
  price : Option String
  country : Option String
  rating : Option String
  image_url : Option String
deriving DecidableEq, Repr

/-- A raw listing row as produced by the CSS extraction schema and fed to
`WaitroseProduct(**p)`: every field may be absent (or JSON `null`), which for
a required `str` field makes pydantic construction fail. -/
structure RawProduct where
  product_name : Option String
  product_url : Option String
  price : Option String
  country : Option String
  rating : Option String
  image_url : Option String
deriving DecidableEq, Repr

/-- `WaitroseProduct(**p)`: pydantic validation.  Construction fails (raises)
exactly when a required field (`product_name`, `product_url`) is absent or
null; every other field passes through unvalidated. -/
def mkWaitroseProduct (p : RawProduct) : Option WaitroseProduct :=
  match p.product_name, p.product_url with
  | some n, some u => some ⟨n, u, p.price, p.country, p.rating, p.image_url⟩
  | _, _ => none

/-- The label removed by `clean_country`, as an explicit character list so
that everything computes by kernel reduction. -/
def labelChars : List Char :=
  ['C', 'o', 'u', 'n', 't', 'r', 'y', ' ', 'o', 'f', ' ', 'O', 'r', 'i', 'g', 'i', 'n', ':']

/-- The label `"Country of Origin:"` as a string. -/
def labelStr : String := String.mk labelChars

/-- Fuel-indexed embedding of Python's `str.replace(label, "")`: scan left to
right, removing every non-overlapping occurrence of `labelChars`.  The fuel
makes the recursion structural; fuel `= l.length` always suffices because
each step consumes at least one character. -/
def removeLabelAux : Nat → List Char → List Char
  | 0, l => l
  | _ + 1, [] => []
  | fuel + 1, c :: cs =>
    if labelChars.isPrefixOf (c :: cs) then
      removeLabelAux fuel (List.drop labelChars.length (c :: cs))
    else
      c :: removeLabelAux fuel cs

/-- `v.replace("Country of Origin:", "")` on character lists. -/
def removeLabel (l : List Char) : List Char :=
  removeLabelAux l.length l

/-- `WaitroseWineDetail.clean_country` (`src/app.py:49`): if the value is
truthy, remove the label everywhere and strip whitespace; `None` and `""`
are returned unchanged. -/
def clean_country : Option String → Option String
  | none => none
  | some s =>
    if s.data.isEmpty then some s
    else some (trimStr (String.mk (removeLabel s.data)))

/-- Match of the regex `\d+\.?\d*` anchored at the start of `l` (leftmost
position of a `re.search`): greedy digits, an optional dot, greedy digits.
Returns `none` when the regex cannot match here, i.e. when `l` does not
start with a digit. -/
def numTokenAt (l : List Char) : Option (List Char) :=
  let ds := l.takeWhile Char.isDigit
  if ds.isEmpty then none
  else
    some
      (match l.drop ds.length with
      | '.' :: rest => ds ++ '.' :: rest.takeWhile Char.isDigit
      | _ => ds)

/-- `re.search(r"(\d+\.?\d*)", ·)`: try the pattern at each position, left to
right, returning the first (leftmost) match. -/
def reSearchNum : List Char → Option (List Char)
  | [] => none
  | c :: cs =>
    match numTokenAt (c :: cs) with
    | some t => some t
    | none => reSearchNum cs

/-- `WaitroseWineDetail.clean_rating` (`src/app.py:57`): for a truthy value,
return the first regex match of `\d+\.?\d*`, or the value unchanged when the
regex does not match anywhere. -/
def clean_rating : Option String → Option String
  | none => none
  | some s =>
    if s.data.isEmpty then some s
    else
      match reSearchNum s.data with
      | some t => some (String.mk t)
      | none => some s

/-- Match of the regex `\d+` anchored at the start of `l`. -/
def intTokenAt (l : List Char) : Option (List Char) :=
  let ds := l.takeWhile Char.isDigit
  if ds.isEmpty then none else some ds

/-- `re.search(r"(\d+)", ·)`: leftmost match of a digit run. -/
def reSearchInt : List Char → Option (List Char)
  | [] => none
  | c :: cs =>
    match intTokenAt (c :: cs) with
    | some t => some t
    | none => reSearchInt cs

/-- `WaitroseWineDetail.clean_review_count` (`src/app.py:66`): for a truthy
value, return the first regex match of `\d+`, or the value unchanged when no
digit occurs. -/
def clean_review_count : Option String → Option String
  | none => none
  | some s =>
    if s.data.isEmpty then some s
    else
      match reSearchInt s.data with
      | some t => some (String.mk t)
      | none => some s

/-- `class WaitroseWineDetail(BaseModel)` from `src/app.py`: the detail
record.  Only `product_name` is required. -/
structure WaitroseWineDetail where
  product_name : String
  price : Option String
  volume : Option String
  image_url : Option String
  product_description : Option String
  country : Option String
  region : Option String
  grape_variety : Option String
  alcohol_content : Option String
  rating : Option String
  review_count : Option String
  original_price : Option String
  stock_status : Option String
  tasting_notes : Option String
  food_pairing : Option String
deriving DecidableEq, Repr

/-- A raw detail row as produced by the CSS extraction schema: every field may
be absent or null. -/
structure RawDetail where
  product_name : Option String
  price : Option String
  volume : Option String
  image_url : Option String
  product_description : Option String
  country : Option String
  region : Option String
  grape_variety : Option String
  alcohol_content : Option String
  rating : Option String
  review_count : Option String
  original_price : Option String
  stock_status : Option String
  tasting_notes : Option String
  food_pairing : Option String
deriving DecidableEq, Repr

/-- `WaitroseWineDetail(**p)`: pydantic validation plus the three
`field_validator` normalizers.  Construction fails exactly when the required
`product_name` is absent or null; `country`, `rating` and `review_count` are
normalized, all other fields pass through. -/
def mkWaitroseWineDetail (p : RawDetail) : Option WaitroseWineDetail :=
  match p.product_name with
  | none => none
  | some n =>
    some
      { product_name := n
        price := p.price
        volume := p.volume
        image_url := p.image_url
        product_description := p.product_description
        country := clean_country p.country
        region := p.region
        grape_variety := p.grape_variety
        alcohol_content := p.alcohol_content
        rating := clean_rating p.rating
        review_count := clean_review_count p.review_count
        original_price := p.original_price
        stock_status := p.stock_status
        tasting_notes := p.tasting_notes
        food_pairing := p.food_pairing }

instance {ε α : Type} [DecidableEq ε] [DecidableEq α] : DecidableEq (Except ε α) := fun x y =>
  match x, y with
  | Except.error a, Except.error b =>
    if h : a = b then Decidable.isTrue (by rw [h])
    else Decidable.isFalse (by intro hc; cases hc; exact h rfl)
  | Except.ok a, Except.ok b =>
    if h : a = b then Decidable.isTrue (by rw [h])
    else Decidable.isFalse (by intro hc; cases hc; exact h rfl)
  | Except.error _, Except.ok _ => Decidable.isFalse (by intro hc; cases hc)
  | Except.ok _, Except.error _ => Decidable.isFalse (by intro hc; cases hc)

/-- The exceptions that can escape `scrape_waitrose` to its caller: a
`json.JSONDecodeError` from `json.loads` (`src/app.py:243`) or a pydantic
`ValidationError` from `WaitroseProduct(**p)` (`src/app.py:246`); neither is
caught in the listing flow. -/
inductive ListingError where
  | parseError
  | validationError
deriving DecidableEq, Repr

/-- The result of one `crawler.arun` call in the listing flow
(`src/app.py:241`): the driver's `success` flag, the extracted content after
`json.loads` (`none` models content that is not valid JSON, `some batch`
the parsed array of raw rows), and the raw page markup `html`. -/
structure ListingFetch where
  success : Bool
  extracted : Option (List RawProduct)
  html : String
deriving DecidableEq, Repr

/-- `"button-load-more" in result.html` (`src/app.py:248`). -/
def hasLoadMore (html : String) : Bool :=
  strContains html.data "button-load-more".data

/-- Embedding of the list comprehension `[WaitroseProduct(**p) for p in batch]`
(and its detail counterpart): build every element in order; the first failing
construction aborts the whole comprehension with an exception, modelled as
`none`. -/
def mapOpt (f : α → Option β) : List α → Option (List β)
  | [] => some []
  | a :: l =>
    match f a, mapOpt f l with
    | some b, some bs => some (b :: bs)
    | _, _ => none

/-- The condition under which the listing loop of `scrape_waitrose` proceeds
from one page to the next: the fetch succeeded, the extracted content parsed,
the batch is non-empty and validates, and the markup still shows the
load-more control. -/
def pageOk (f : ListingFetch) : Bool :=
  f.success && f.extracted.isSome && !(f.extracted.getD []).isEmpty
    && (mapOpt mkWaitroseProduct (f.extracted.getD [])).isSome && hasLoadMore f.html

/-- The products contributed by one successful page fetch. -/
def pageProducts (f : ListingFetch) : List WaitroseProduct :=
  (mapOpt mkWaitroseProduct (f.extracted.getD [])).getD []

/-- The products accumulated from `k` consecutive page fetches starting at
call index `i`. -/
def accProducts (dd : Nat → ListingFetch) (i : Nat) : Nat → List WaitroseProduct
  | 0 => []
  | k + 1 => pageProducts (dd i) ++ accProducts dd (i + 1) k

/-- The `for page in range(max_pages)` loop of `scrape_waitrose`
(`src/app.py:216`), instrumented with the number of `crawler.arun` calls
performed (`calls`).  `dd i` is the result of the `i`-th `arun` call; `r` is
the number of loop iterations still allowed.  Mirrors the source order:
fetch; on failure break; parse (a parse failure propagates as an uncaught
exception, `Except.error`); on empty batch break; validate and extend (a
validation failure propagates); break when the load-more marker is gone. -/
def scrapeLoop (dd : Nat → ListingFetch) :
    Nat → Nat → List WaitroseProduct → Nat →
      Except ListingError (List WaitroseProduct) × Nat
  | _, 0, acc, calls => (Except.ok acc, calls)
  | i, r + 1, acc, calls =>
    if (dd i).success then
      match (dd i).extracted with
      | none => (Except.error ListingError.parseError, calls + 1)
      | some batch =>
        if batch.isEmpty then (Except.ok acc, calls + 1)
        else
          match mapOpt mkWaitroseProduct batch with
          | none => (Except.error ListingError.validationError, calls + 1)
          | some rows =>
            if hasLoadMore (dd i).html then
              scrapeLoop dd (i + 1) r (acc ++ rows) (calls + 1)
            else (Except.ok (acc ++ rows), calls + 1)
    else (Except.ok acc, calls + 1)

/-- The search URL built by `scrape_waitrose` (`src/app.py:201`): the search
term is interpolated verbatim, not escaped. -/
def listingUrl (term : String) : String :=
  "https://www.waitrose.com/ecom/shop/search?&searchTerm=" ++ term

/-- `scrape_waitrose(search_term, max_pages)` (`src/app.py:197`): run the
pagination loop against the driver.  The driver is a function from the
requested URL and the call index to the fetch result; the result pairs the
outcome (`Except.error` models an exception escaping to the caller) with the
number of navigation (`arun`) calls performed. -/
def scrape_waitrose (d : String → Nat → ListingFetch) (search_term : String)
    (max_pages : Nat) : Except ListingError (List WaitroseProduct) × Nat :=
  scrapeLoop (fun n => d (listingUrl search_term) n) 0 max_pages [] 0

/-- The shape of a successfully parsed detail payload
(`src/app.py:296`): `json.loads` may produce a single JSON object or an
array, and the source normalizes both. -/
inductive DetailPayload where
  | obj : RawDetail → DetailPayload
  | arr : List RawDetail → DetailPayload
deriving DecidableEq, Repr

/-- The result of the single `crawler.arun` call in the detail flow:
`success` flag and extracted content (`none` models malformed JSON). -/
structure DetailFetch where
  success : Bool
  extracted : Option DetailPayload
deriving DecidableEq, Repr

/-- The detail URL built by `scrape_waitrose_details` (`src/app.py:258`). -/
def detailUrl (link : String) : String :=
  "https://www.waitrose.com" ++ link

/-- `scrape_waitrose_details(link)` (`src/app.py:256`).  All failures are
caught: a failed fetch, a JSON parse failure, and any construction failure
inside the `try` block are logged and yield the empty list.  Note that the
`try` wraps the whole list comprehension, so one failing row discards the
entire batch.  A payload that is Python-falsy (empty object, empty array,
null) is skipped by `if data:`; for the object case this coincides with the
model because an object with no fields also fails validation (no name). -/
def scrape_waitrose_details (d : String → DetailFetch) (link : String) :
    List WaitroseWineDetail :=
  if (d (detailUrl link)).success then
    match (d (detailUrl link)).extracted with
    | none => []
    | some (DetailPayload.arr l) =>
      match mapOpt mkWaitroseWineDetail l with
      | some ds => ds
      | none => []
    | some (DetailPayload.obj o) =>
      match mkWaitroseWineDetail o with
      | some w => [w]
      | none => []
  else []

/-- Whether a string contains any digit at all (the spec's "contains no
numeric token" is its negation). -/
def hasDigit (s : String) : Bool :=
  s.data.any Char.isDigit

/-- Spec wording for `review_count`: the leading (first-occurring) integer
token of the text, i.e. the maximal digit run starting at the first digit. -/
def leadingIntToken (s : String) : String :=
  String.mk ((s.data.dropWhile fun c => ! c.isDigit).takeWhile Char.isDigit)

/-- The token actually produced by the rating regex `\d+\.?\d*` at the first
digit of `l`: the digit run, then — if a dot immediately follows — the dot
(kept even when no digit follows it) and any digits after it. -/
def looseTokenChars (l : List Char) : List Char :=
  let rest := l.dropWhile fun c => ! c.isDigit
  let ds := rest.takeWhile Char.isDigit
  match rest.drop ds.length with
  | '.' :: r => ds ++ '.' :: r.takeWhile Char.isDigit
  | _ => ds

/-- `looseTokenChars` at the `String` level. -/
def leadingNumTokenLoose (s : String) : String :=
  String.mk (looseTokenChars s.data)

/-- Spec wording for `rating`: the leading numeric token, *integer or
decimal* — the digit run, extended across a dot only when at least one digit
follows the dot. -/
def strictNumToken (s : String) : String :=
  let rest := s.data.dropWhile fun c => ! c.isDigit
  let ds := rest.takeWhile Char.isDigit
  match rest.drop ds.length with
  | '.' :: r =>
    match r.takeWhile Char.isDigit with
    | [] => String.mk ds
    | more => String.mk (ds ++ '.' :: more)
  | _ => String.mk ds

/-- Modelled from the spec's words for C5: the rating normalizer returns the
leading numeric token (integer or decimal), or the text unchanged when it
contains no numeric token. -/
def specCleanRating : Option String → Option String
  | none => none
  | some s => some (if hasDigit s then strictNumToken s else s)

/-- Whether the label `"Country of Origin:"` occurs anywhere in `s`. -/
def occursLabel (s : String) : Bool :=
  strContains s.data labelChars

/-- Remove the label `"Country of Origin:"` only when it is a prefix of the
string (the spec's wording), leaving the string unchanged otherwise. -/
def stripLabelAtFront (s : String) : String :=
  if labelChars.isPrefixOf s.data then String.mk (s.data.drop labelChars.length) else s

/-- Modelled from the spec's words for C7: the country normalizer strips the
label prefix and surrounding whitespace. -/
def specCleanCountry : Option String → Option String
  | none => none
  | some s => some (trimStr (stripLabelAtFront s))

/-- Concrete listing row: a well-formed product. -/
def rp1 : RawProduct :=
  ⟨some "Wine A", some "/p/1", none, none, none, none⟩

/-- Concrete fetch result for page 0: success, one valid row, load-more
marker still present in the markup. -/
def wfetch0 : ListingFetch :=
  ⟨true, some [rp1], "xx button-load-more yy"⟩

/-- Concrete fetch result reporting a failed navigation. -/
def wfetchFail : ListingFetch :=
  ⟨false, none, ""⟩

/-- Concrete driver for the C1 witness: page 0 succeeds, page 1 fails. -/
def wdriver : String → Nat → ListingFetch :=
  fun _ n => if n = 0 then wfetch0 else wfetchFail

/-- Concrete driver whose every fetch succeeds but returns malformed JSON. -/
def c2driver : String → Nat → ListingFetch :=
  fun _ _ => ⟨true, none, ""⟩

/-- Concrete detail driver returning malformed JSON on a successful fetch. -/
def c2det : String → DetailFetch :=
  fun _ => ⟨true, none⟩

/-- Concrete detail row that validates (name present). -/
def rdGood : RawDetail :=
  ⟨some "Merlot", some "8.00", none, none, none, none, none, none, none,
   none, none, none, none, none, none⟩

/-- Concrete detail row that fails validation (name absent). -/
def rdBad : RawDetail :=
  ⟨none, some "9.00", none, none, none, none, none, none, none,
   none, none, none, none, none, none⟩

theorem scrapeLoop_step_fail (dd : Nat → ListingFetch) (i r : Nat)
    (acc : List WaitroseProduct) (calls : Nat) (h : (dd i).success = false) :
    scrapeLoop dd i (r + 1) acc calls = (Except.ok acc, calls + 1) := by
  simp [scrapeLoop, h]

theorem scrapeLoop_step_parse (dd : Nat → ListingFetch) (i r : Nat)
    (acc : List WaitroseProduct) (calls : Nat) (hs : (dd i).success = true)
    (he : (dd i).extracted = none) :
    scrapeLoop dd i (r + 1) acc calls
      = (Except.error ListingError.parseError, calls + 1) := by
  simp [scrapeLoop, hs, he]

theorem scrapeLoop_step_ok (dd : Nat → ListingFetch) (i r : Nat)
    (acc : List WaitroseProduct) (calls : Nat) (h : pageOk (dd i) = true) :
    scrapeLoop dd i (r + 1) acc calls
      = scrapeLoop dd (i + 1) r (acc ++ pageProducts (dd i)) (calls + 1) := by
  have h' := h
  simp only [pageOk, Bool.and_eq_true, Bool.not_eq_true'] at h'
  obtain ⟨⟨⟨⟨hs, hsome⟩, hne⟩, hmap⟩, hlm⟩ := h'
  obtain ⟨b, hb⟩ := Option.isSome_iff_exists.mp hsome
  rw [hb] at hne hmap
  simp only [Option.getD_some] at hne hmap
  obtain ⟨rows, hrows⟩ := Option.isSome_iff_exists.mp hmap
  have hpp : pageProducts (dd i) = rows := by
    unfold pageProducts
    rw [hb]
    simp [hrows]
  simp [scrapeLoop, hs, hb, hne, hrows, hlm, hpp]

theorem scrapeLoop_reach (dd : Nat → ListingFetch) (k : Nat) :
    ∀ (i r : Nat) (acc : List WaitroseProduct) (calls : Nat), k ≤ r →
      (∀ j, j < k → pageOk (dd (i + j)) = true) →
      scrapeLoop dd i r acc calls
        = scrapeLoop dd (i + k) (r - k) (acc ++ accProducts dd i k) (calls + k) := by
  induction k with
  | zero => intro i r acc calls _ _; simp [accProducts]
  | succ k IH =>
    intro i r acc calls hkr hok
    obtain ⟨r', rfl⟩ : ∃ r', r = r' + 1 := ⟨r - 1, by omega⟩
    have h0 : pageOk (dd i) = true := by simpa using hok 0 (Nat.succ_pos k)
    rw [scrapeLoop_step_ok dd i r' acc calls h0]
    rw [IH (i + 1) r' (acc ++ pageProducts (dd i)) (calls + 1) (by omega)
      (fun j hj => by
        have h := hok (j + 1) (by omega)
        have e : i + (j + 1) = i + 1 + j := by omega
        rwa [e] at h)]
    have e1 : i + 1 + k = i + (k + 1) := by omega
    have e2 : r' - k = r' + 1 - (k + 1) := by omega
    have e3 : calls + 1 + k = calls + (k + 1) := by omega
    have e4 : (acc ++ pageProducts (dd i)) ++ accProducts dd (i + 1) k
        = acc ++ accProducts dd i (k + 1) := by simp [accProducts]
    rw [e1, e2, e3, e4]

theorem removeLabelAux_no_occ : ∀ (fuel : Nat) (l : List Char),
    strContains l labelChars = false → removeLabelAux fuel l = l
  | 0, _, _ => rfl
  | _ + 1, [], _ => rfl
  | fuel + 1, c :: cs, h => by
    have h' : labelChars.isPrefixOf (c :: cs) = false
        ∧ strContains cs labelChars = false := by
      simpa [strContains] using h
    simp [removeLabelAux, h'.1, removeLabelAux_no_occ fuel cs h'.2]

theorem removeLabelAux_label_step (fuel : Nat) (t : List Char) :
    removeLabelAux (fuel + 1) (labelChars ++ t) = removeLabelAux fuel t := by
  have hpre : labelChars.isPrefixOf (labelChars ++ t) = true :=
    List.isPrefixOf_iff_prefix.mpr (List.prefix_append _ _)
  have hstep : removeLabelAux (fuel + 1) (labelChars ++ t)
      = if labelChars.isPrefixOf (labelChars ++ t) = true then
          removeLabelAux fuel (List.drop labelChars.length (labelChars ++ t))
        else 'C' :: removeLabelAux fuel (List.drop 1 labelChars ++ t) := rfl
  rw [hstep, if_pos hpre, List.drop_left]

theorem mapOpt_append_none {α β : Type} (f : α → Option β) (x : α) (hx : f x = none) :
    ∀ (l1 l2 : List α), mapOpt f (l1 ++ x :: l2) = none
  | [], l2 => by simp [mapOpt, hx]
  | a :: l1, l2 => by
    have IH : mapOpt f (l1.append (x :: l2)) = none := mapOpt_append_none f x hx l1 l2
    simp only [List.cons_append, mapOpt]
    rw [IH]
    cases f a <;> rfl

theorem reSearchInt_eq (l : List Char) :
    reSearchInt l
      = if l.any Char.isDigit then
          some ((l.dropWhile fun c => ! c.isDigit).takeWhile Char.isDigit)
        else none := by
  induction l with
  | nil => rfl
  | cons c cs IH =>
    by_cases hc : c.isDigit = true
    · simp [reSearchInt, intTokenAt, hc]
    · simp [reSearchInt, intTokenAt, hc, IH]

theorem reSearchNum_eq (l : List Char) :
    reSearchNum l = if l.any Char.isDigit then some (looseTokenChars l) else none := by
  induction l with
  | nil => rfl
  | cons c cs IH =>
    by_cases hc : c.isDigit = true
    · simp [reSearchNum, numTokenAt, looseTokenChars, hc]
    · simp [reSearchNum, numTokenAt, looseTokenChars, hc, IH]

/-- Claim C1: for every listing call where the driver reports a non-success
fetch on page k (k > 0, reached because every earlier page continued the
loop), `scrape_waitrose` returns exactly the products accumulated through
page k-1, as a normal value (no exception), having performed k+1 navigation
calls. -/
theorem C1_fetch_failure_truncates
    (d : String → Nat → ListingFetch) (term : String) (k max_pages : Nat)
    (hk : 0 < k) (hkm : k < max_pages)
    (hok : ∀ j, j < k → pageOk (d (listingUrl term) j) = true)
    (hfail : (d (listingUrl term) k).success = false) :
    scrape_waitrose d term max_pages
      = (Except.ok (accProducts (fun n => d (listingUrl term) n) 0 k), k + 1) := by
  unfold scrape_waitrose
  rw [scrapeLoop_reach (fun n => d (listingUrl term) n) k 0 max_pages [] 0
    (le_of_lt hkm) (fun j hj => by simpa using hok j hj)]
  simp only [Nat.zero_add, List.nil_append]
  obtain ⟨m, hm⟩ : ∃ m, max_pages - k = m + 1 := ⟨max_pages - k - 1, by omega⟩
  rw [hm, scrapeLoop_step_fail _ _ _ _ _ hfail]

/-- Witness for C1: a concrete driver whose page 0 succeeds with one product
and whose page 1 fetch fails; the call returns that one product with no
error, after two navigation calls. -/
theorem C1_fetch_failure_truncates_witness :
    scrape_waitrose wdriver "wine" 5
      = (Except.ok [⟨"Wine A", "/p/1", none, none, none, none⟩], 2) := by
  have h := C1_fetch_failure_truncates wdriver "wine" 1 5 (by decide) (by decide)
    (fun j hj => by
      have hj0 : j = 0 := Nat.lt_one_iff.mp hj
      subst hj0
      decide)
    (by decide)
  exact h.trans (by decide)

/-- Counterexample for C2: a driver whose page-0 fetch succeeds but whose
extracted payload is malformed JSON.  The claim predicts silent truncation to
the empty accumulated list; the code instead lets the parse error escape to
the caller. -/
theorem C2_cex_parse_error_raised :
    scrape_waitrose c2driver "wine" 5 = (Except.error ListingError.parseError, 1) := by
  decide

/-- Claim C2 (amended): in the listing flow a malformed extracted payload is
not silently swallowed - the parse error propagates to the caller as an
exception; only in the detail flow is a parse failure caught and logged,
yielding the empty sequence. -/
theorem C2_amended_parse_failure_behavior :
    (∀ (d : String → Nat → ListingFetch) (term : String) (k max_pages : Nat),
        k < max_pages →
        (∀ j, j < k → pageOk (d (listingUrl term) j) = true) →
        (d (listingUrl term) k).success = true →
        (d (listingUrl term) k).extracted = none →
        (scrape_waitrose d term max_pages).1 = Except.error ListingError.parseError)
    ∧ (∀ (dd : String → DetailFetch) (link : String),
        (dd (detailUrl link)).success = true →
        (dd (detailUrl link)).extracted = none →
        scrape_waitrose_details dd link = []) := by
  constructor
  · intro d term k max_pages hkm hok hs he
    unfold scrape_waitrose
    rw [scrapeLoop_reach (fun n => d (listingUrl term) n) k 0 max_pages [] 0
      (le_of_lt hkm) (fun j hj => by simpa using hok j hj)]
    simp only [Nat.zero_add, List.nil_append]
    obtain ⟨m, hm⟩ : ∃ m, max_pages - k = m + 1 := ⟨max_pages - k - 1, by omega⟩
    rw [hm, scrapeLoop_step_parse _ _ _ _ _ hs he]
  · intro dd link hs he
    simp [scrape_waitrose_details, hs, he]

/-- Witness for the amended C2: both conjuncts applied to concrete drivers
returning malformed JSON on a successful fetch. -/
theorem C2_amended_witness :
    (scrape_waitrose c2driver "wine" 5).1 = Except.error ListingError.parseError
      ∧ scrape_waitrose_details c2det "/p/1" = [] := by
  constructor
  · exact C2_amended_parse_failure_behavior.1 c2driver "wine" 0 5 (by decide)
      (fun j hj => absurd hj (Nat.not_lt_zero j)) (by decide) (by decide)
  · exact C2_amended_parse_failure_behavior.2 c2det "/p/1" (by decide) (by decide)

/-- Counterexample for C3: a listing row and a detail row whose `name` is the
*empty string* construct successfully (pydantic has no non-empty constraint),
and a listing row missing the link field fails construction even though its
name is fine - both against the claim's wording. -/
theorem C3_cex_empty_name_accepted :
    (mkWaitroseProduct ⟨some "", some "/p/1", none, none, none, none⟩).isSome = true
      ∧ (mkWaitroseWineDetail ⟨some "", none, none, none, none, none, none, none,
          none, none, none, none, none, none, none⟩).isSome = true
      ∧ mkWaitroseProduct ⟨some "Wine", none, none, none, none, none⟩ = none := by
  decide

/-- Claim C3 (amended): construction fails exactly when a required field is
absent or null - `product_name` for both record types and additionally
`product_url` for the listing record; an empty-string name is accepted.  On
success every other field passes through raw, except the three detail fields
that are normalized. -/
theorem C3_amended_required_fields :
    (∀ r : RawProduct, mkWaitroseProduct { r with product_name := none } = none)
    ∧ (∀ r : RawProduct, mkWaitroseProduct { r with product_url := none } = none)
    ∧ (∀ (r : RawProduct) (n u : String),
        mkWaitroseProduct { r with product_name := some n, product_url := some u }
          = some ⟨n, u, r.price, r.country, r.rating, r.image_url⟩)
    ∧ (∀ r : RawDetail, mkWaitroseWineDetail { r with product_name := none } = none)
    ∧ (∀ (r : RawDetail) (n : String),
        mkWaitroseWineDetail { r with product_name := some n }
          = some ⟨n, r.price, r.volume, r.image_url, r.product_description,
              clean_country r.country, r.region, r.grape_variety, r.alcohol_content,
              clean_rating r.rating, clean_review_count r.review_count,
              r.original_price, r.stock_status, r.tasting_notes, r.food_pairing⟩) := by
  refine ⟨fun r => rfl, fun r => ?_, fun r n u => rfl, fun r => rfl, fun r n => rfl⟩
  cases r.product_name <;> rfl

/-- Counterexample for C4: an array payload with a valid first row and an
invalid second row.  The claim predicts the valid row survives; the code
returns the empty sequence because the `try` wraps the whole comprehension. -/
theorem C4_cex_batch_discarded :
    scrape_waitrose_details
        (fun _ => ⟨true, some (DetailPayload.arr [rdGood, rdBad])⟩) "/p/1" = []
      ∧ (mkWaitroseWineDetail rdGood).isSome = true := by
  decide

/-- Claim C4 (amended): a per-row validation failure (missing name) anywhere
in an array payload is caught and logged but aborts the whole batch: the
returned sequence is empty; surviving rows are not kept. -/
theorem C4_amended_row_failure_discards_batch
    (l1 l2 : List RawDetail) (r : RawDetail) (link : String) :
    scrape_waitrose_details
        (fun _ => ⟨true, some (DetailPayload.arr
          (l1 ++ { r with product_name := none } :: l2))⟩) link = [] := by
  have h : mapOpt mkWaitroseWineDetail (l1 ++ { r with product_name := none } :: l2)
      = none := mapOpt_append_none _ _ rfl l1 l2
  simp [scrape_waitrose_details, h]

/-- Counterexample for C5: on `"1..5"` the regex `\d+\.?\d*` matches `"1."`
(the greedy optional dot is kept although no digit follows), which is not the
leading numeric token (integer or decimal) `"1"` demanded by the claim. -/
theorem C5_cex_trailing_dot :
    clean_rating (some "1..5") = some "1."
      ∧ specCleanRating (some "1..5") = some "1"
      ∧ clean_rating (some "1..5") ≠ specCleanRating (some "1..5") := by
  decide

/-- Claim C5 (amended): for text containing a digit the rating normalizer
returns the token that starts at the first digit: the digit run, plus - when
a dot immediately follows - the dot (kept even when not followed by a digit)
and any digits after it; text without a digit is returned unchanged.  The
claim's three examples hold. -/
theorem C5_amended_regex_token :
    (∀ s : String, clean_rating (some s)
        = some (if hasDigit s then leadingNumTokenLoose s else s))
    ∧ clean_rating (some "4.5 out of 5 stars") = some "4.5"
    ∧ clean_rating (some "4out of 5 stars") = some "4"
    ∧ clean_rating (some "excellent") = some "excellent" := by
  refine ⟨fun s => ?_, by decide, by decide, by decide⟩
  simp only [clean_rating]
  by_cases he : s.data.isEmpty = true
  · have hnil := List.isEmpty_iff.mp he
    have hnd : hasDigit s = false := by simp [hasDigit, hnil]
    rw [if_pos he, hnd]
    simp
  · rw [if_neg he, reSearchNum_eq]
    by_cases hd : s.data.any Char.isDigit = true
    · simp [hd, hasDigit, leadingNumTokenLoose]
    · simp [hasDigit, hd]

/-- Claim C6: for every non-None review-count string, the normalizer returns
the leading integer token (the maximal digit run starting at the first
digit), and returns the text unchanged when it contains no digit; the claim's
examples hold. -/
theorem C6_review_count_leading_int :
    (∀ s : String, clean_review_count (some s)
        = some (if hasDigit s then leadingIntToken s else s))
    ∧ clean_review_count (some "37 reviews") = some "37"
    ∧ clean_review_count (some "no reviews yet") = some "no reviews yet" := by
  refine ⟨fun s => ?_, by decide, by decide⟩
  simp only [clean_review_count]
  by_cases he : s.data.isEmpty = true
  · have hnil := List.isEmpty_iff.mp he
    have hnd : hasDigit s = false := by simp [hasDigit, hnil]
    rw [if_pos he, hnd]
    simp
  · rw [if_neg he, reSearchInt_eq]
    by_cases hd : s.data.any Char.isDigit = true
    · simp [hd, hasDigit, leadingIntToken]
    · simp [hasDigit, hd]

/-- Counterexample for C7: the code removes the label *everywhere* in the
string (Python `str.replace`), not only as a prefix: on
`"France Country of Origin:"` the code yields `"France"`, while stripping
only a label prefix and surrounding whitespace leaves the text unchanged. -/
theorem C7_cex_interior_label :
    clean_country (some "France Country of Origin:") = some "France"
      ∧ specCleanCountry (some "France Country of Origin:")
          = some "France Country of Origin:"
      ∧ clean_country (some "France Country of Origin:")
          ≠ specCleanCountry (some "France Country of Origin:") := by
  decide

/-- Claim C7 (amended): the country normalizer removes every occurrence of
the label `"Country of Origin:"` anywhere in the string and strips
surrounding whitespace.  When the label does not occur, this is just
whitespace stripping; when the string is the label followed by label-free
text, the result is that text stripped - so on label-prefixed and on
already-clean inputs it behaves as the spec's prefix-stripping describes,
and the claim's examples hold. -/
theorem C7_amended_replace_all :
    (∀ s : String, occursLabel s = false → clean_country (some s) = some (trimStr s))
    ∧ (∀ t : String, occursLabel t = false →
        clean_country (some (String.mk (labelChars ++ t.data))) = some (trimStr t))
    ∧ clean_country (some "Country of Origin: France") = some "France"
    ∧ clean_country (some "France") = some "France" := by
  refine ⟨?_, ?_, by decide, by decide⟩
  · intro s h
    cases s with
    | mk d =>
      by_cases he : d.isEmpty = true
      · have hnil := List.isEmpty_iff.mp he
        subst hnil
        rfl
      · have hocc : strContains d labelChars = false := h
        have hrl : removeLabel d = d := removeLabelAux_no_occ d.length d hocc
        simp only [clean_country]
        rw [if_neg he, hrl]
  · intro t h
    have hocc : strContains t.data labelChars = false := h
    simp only [clean_country]
    have hne : ¬((labelChars ++ t.data).isEmpty = true) := by simp [labelChars]
    rw [if_neg hne]
    have h18 : labelChars.length = 18 := rfl
    have hlen : (labelChars ++ t.data).length = t.data.length + 17 + 1 := by
      rw [List.length_append, h18]; omega
    have hrl : removeLabel (labelChars ++ t.data) = t.data := by
      unfold removeLabel
      rw [hlen, removeLabelAux_label_step, removeLabelAux_no_occ _ _ hocc]
    rw [hrl]

/-- Witness for the amended C7: a label-free string is only stripped, and a
label-prefixed string loses the label and the surrounding whitespace. -/
theorem C7_amended_witness :
    clean_country (some "Italy") = some "Italy"
      ∧ clean_country (some (String.mk (labelChars ++ " France".data))) = some "France" := by
  constructor
  · exact (C7_amended_replace_all.1 "Italy" (by decide)).trans (by decide)
  · exact (C7_amended_replace_all.2.1 " France" (by decide)).trans (by decide)

/-- Counterexample for C8: a detail payload that is a single JSON object with
a price but no name yields the empty sequence, not a sequence of length 1 as
the claim states. -/
theorem C8_cex_object_without_name :
    scrape_waitrose_details (fun _ => ⟨true, some (DetailPayload.obj rdBad)⟩) "/p/1" = []
      ∧ (scrape_waitrose_details
          (fun _ => ⟨true, some (DetailPayload.obj rdBad)⟩) "/p/1").length ≠ 1 := by
  decide

/-- Claim C8 (amended): a single-object payload whose required name is
present yields exactly one record whose fields match the object after
normalization; an object payload without a name yields the empty sequence;
an array payload yields one record per element when every element validates,
and the empty sequence otherwise. -/
theorem C8_amended_payload_shapes
    (r : RawDetail) (n : String) (l : List RawDetail) (link : String) :
    scrape_waitrose_details
        (fun _ => ⟨true, some (DetailPayload.obj { r with product_name := some n })⟩) link
      = [⟨n, r.price, r.volume, r.image_url, r.product_description,
          clean_country r.country, r.region, r.grape_variety, r.alcohol_content,
          clean_rating r.rating, clean_review_count r.review_count, r.original_price,
          r.stock_status, r.tasting_notes, r.food_pairing⟩]
    ∧ scrape_waitrose_details
        (fun _ => ⟨true, some (DetailPayload.obj { r with product_name := none })⟩) link = []
    ∧ scrape_waitrose_details (fun _ => ⟨true, some (DetailPayload.arr l)⟩) link
        = (mapOpt mkWaitroseWineDetail l).getD [] := by
  refine ⟨rfl, rfl, ?_⟩
  cases h : mapOpt mkWaitroseWineDetail l <;> simp [scrape_waitrose_details, h]

/-- Claim C9: with a max page count of 0, `scrape_waitrose` returns the empty
list (no error) and performs zero navigation calls, for any driver and search
term. -/
theorem C9_zero_pages (d : String → Nat → ListingFetch) (term : String) :
    scrape_waitrose d term 0 = (Except.ok [], 0) := rfl

/-- Claim C10: each of the three detail normalizers maps `none` to `none` and
the empty string to the empty string unchanged - normalization only touches
non-empty text. -/
theorem C10_normalizers_none_empty :
    clean_country none = none ∧ clean_rating none = none
      ∧ clean_review_count none = none
      ∧ clean_country (some "") = some "" ∧ clean_rating (some "") = some ""
      ∧ clean_review_count (some "") = some "" := by
  decide
